import Mathlib

/-!
Verification of the HOD (Halo Occupation Distribution) module `halomod/hod.py`.

All occupation methods in the source act elementwise over a numpy array of
halo masses, so we model a mass as a single real number `m : ℝ` and every
method as a function `ℝ → ℝ`.  A model instance is a record holding the
`_central` flag, the class constant `central_condition_inherent`, and the
(dynamically dispatched) primitive methods; the concrete base-class methods
(`central_occupation`, `satellite_occupation`, `total_occupation`,
`total_pair_function`) are functions over that record, exactly as in the
source.  Mixins (`HODPoisson`, `HODNoCentral`, `HODBulk`) are constructors
that fill in the primitive fields from the remaining free ones, mirroring
Python's method resolution (no override cycles exist in the source).
-/

noncomputable section

/-- A model instance: the `_central` flag, the class constant
`central_condition_inherent`, and the primitive methods of `class HOD`
(`hod.py` lines 66-151).  Field `central` is the stored `self._central`;
`co_raw` is `_central_occupation` and `so_raw` is `_satellite_occupation`. -/
structure HOD where
  central : Bool
  central_condition_inherent : Bool
  nc : ℝ → ℝ
  ns : ℝ → ℝ
  co_raw : ℝ → ℝ
  so_raw : ℝ → ℝ
  ss_pairs : ℝ → ℝ
  cs_pairs : ℝ → ℝ
  sigma_central : ℝ → ℝ
  sigma_satellite : ℝ → ℝ

/-- `HOD.central_occupation` (`hod.py` lines 153-155): returns
`self._central_occupation(m)` unchanged. -/
def HOD.central_occupation (h : HOD) (m : ℝ) : ℝ := h.co_raw m

/-- `HOD.satellite_occupation` (`hod.py` lines 157-162):
`nc(m) * _satellite_occupation(m)` when `self._central` and not
`central_condition_inherent`, else `_satellite_occupation(m)`. -/
def HOD.satellite_occupation (h : HOD) (m : ℝ) : ℝ :=
  if h.central = true ∧ h.central_condition_inherent = false then
    h.nc m * h.so_raw m
  else
    h.so_raw m

/-- `HOD.total_occupation` (`hod.py` lines 164-166). -/
def HOD.total_occupation (h : HOD) (m : ℝ) : ℝ :=
  h.central_occupation m + h.satellite_occupation m

/-- `HOD.total_pair_function` (`hod.py` lines 168-170). -/
def HOD.total_pair_function (h : HOD) (m : ℝ) : ℝ :=
  h.ss_pairs m + h.cs_pairs m

/-- `class HODPoisson` (`hod.py` lines 212-248): given the flag, the class
constant, the two raw occupation formulas and the tracer-per-object methods
(`_tracer_per_central` defaults to `1`, `_tracer_per_satellite` defaults to
`_tracer_per_central`), fills in `nc`, `ns`, `ss_pairs`, `cs_pairs`,
`sigma_central`, `sigma_satellite`.  The local `satocc` is the dispatched
`self.satellite_occupation`, which those methods call. -/
def mkHODPoisson (central cci : Bool) (co_raw so_raw tpc tps : ℝ → ℝ) : HOD :=
  let nc : ℝ → ℝ := fun m => co_raw m / tpc m
  let satocc : ℝ → ℝ := fun m =>
    if central = true ∧ cci = false then nc m * so_raw m else so_raw m
  { central := central
    central_condition_inherent := cci
    nc := nc
    ns := fun m => satocc m / tps m
    co_raw := co_raw
    so_raw := so_raw
    ss_pairs := fun m => satocc m ^ 2
    cs_pairs := fun m =>
      if central = true then satocc m * tpc m else co_raw m * satocc m
    sigma_central := fun m => Real.sqrt (co_raw m * (1 - co_raw m))
    sigma_satellite := fun m => Real.sqrt (satocc m) }

/-- `Zehavi05._central_occupation` (`hod.py` lines 268-275): ones, zeroed
where `m < 10 ** M_min`. -/
def Zehavi05_co (M_min : ℝ) (m : ℝ) : ℝ :=
  if m < (10 : ℝ) ^ M_min then 0 else 1

/-- `Zehavi05._satellite_occupation` (`hod.py` lines 277-281):
`(m / 10 ** M_1) ** alpha`. -/
def Zehavi05_so (M_1 alpha : ℝ) (m : ℝ) : ℝ :=
  (m / (10 : ℝ) ^ M_1) ^ alpha

/-- `class Zehavi05(HODPoisson)` (`hod.py` lines 251-281);
`central_condition_inherent` is inherited as `False`. -/
def Zehavi05 (central : Bool) (M_min M_1 alpha : ℝ) : HOD :=
  mkHODPoisson central false (Zehavi05_co M_min) (Zehavi05_so M_1 alpha)
    (fun _ => 1) (fun _ => 1)

/-- `Zheng05._central_occupation` (`hod.py` lines 310-316):
`0.5 * (1 + erf((log10 m - M_min) / sig_logm))`.  `erf` is
`scipy.special.erf`, an external collaborator, so it is taken as a function
argument. -/
def Zheng05_co (erf : ℝ → ℝ) (M_min sig_logm : ℝ) (m : ℝ) : ℝ :=
  0.5 * (1 + erf ((Real.logb 10 m - M_min) / sig_logm))

/-- `Zheng05._satellite_occupation` (`hod.py` lines 318-327): zeros, set to
`((m - 10 ** M_0) / 10 ** M_1) ** alpha` where `m > 10 ** M_0`. -/
def Zheng05_so (M_0 M_1 alpha : ℝ) (m : ℝ) : ℝ :=
  if m > (10 : ℝ) ^ M_0 then ((m - (10 : ℝ) ^ M_0) / (10 : ℝ) ^ M_1) ^ alpha
  else 0

/-- `class Zheng05(HODPoisson)` (`hod.py` lines 284-331). -/
def Zheng05 (erf : ℝ → ℝ) (central : Bool) (M_min M_1 alpha M_0 sig_logm : ℝ) :
    HOD :=
  mkHODPoisson central false (Zheng05_co erf M_min sig_logm)
    (Zheng05_so M_0 M_1 alpha) (fun _ => 1) (fun _ => 1)

/-- `Contreras13._central_occupation` (`hod.py` lines 375-389). -/
def Contreras13_co (erf : ℝ → ℝ) (M_min sig_logm fca fcb x : ℝ) (m : ℝ) : ℝ :=
  fcb * (1 - fca) *
      Real.exp (-(Real.logb 10 (m / (10 : ℝ) ^ M_min)) ^ 2 /
        (2 * (x * sig_logm) ^ 2)) +
    fca * (1 + erf (Real.logb 10 (m / (10 : ℝ) ^ M_min) / x / sig_logm))

/-- `Contreras13._satellite_occupation` (`hod.py` lines 391-402). -/
def Contreras13_so (erf : ℝ → ℝ) (M_1 alpha fs delta : ℝ) (m : ℝ) : ℝ :=
  fs * (1 + erf (Real.logb 10 (m / (10 : ℝ) ^ M_1) / delta)) *
    (m / (10 : ℝ) ^ M_1) ^ alpha

/-- `class Contreras13(HODPoisson)` (`hod.py` lines 334-402). -/
def Contreras13 (erf : ℝ → ℝ) (central : Bool)
    (M_min M_1 alpha M_0 sig_logm fca fcb fs delta x : ℝ) : HOD :=
  mkHODPoisson central false (Contreras13_co erf M_min sig_logm fca fcb x)
    (Contreras13_so erf M_1 alpha fs delta) (fun _ => 1) (fun _ => 1)

/-- `class Geach12(Contreras13)` (`hod.py` lines 405-412): body is `pass`,
so it is identical to `Contreras13`. -/
def Geach12 (erf : ℝ → ℝ) (central : Bool)
    (M_min M_1 alpha M_0 sig_logm fca fcb fs delta x : ℝ) : HOD :=
  Contreras13 erf central M_min M_1 alpha M_0 sig_logm fca fcb fs delta x

/-- `Tinker05._satellite_occupation` (`hod.py` lines 421-427):
`central_occupation(m) * exp(-(10 ** M_cut) / (m - 10 ** M_min)) *
(m / 10 ** M_1)`, where `central_occupation` is inherited from `Zehavi05`. -/
def Tinker05_so (M_min M_1 M_cut : ℝ) (m : ℝ) : ℝ :=
  Zehavi05_co M_min m *
    Real.exp (-((10 : ℝ) ^ M_cut) / (m - (10 : ℝ) ^ M_min)) *
    (m / (10 : ℝ) ^ M_1)

/-- `class Tinker05(Zehavi05)` (`hod.py` lines 415-427):
`central_condition_inherent = True`. -/
def Tinker05 (central : Bool) (M_min M_1 M_cut : ℝ) : HOD :=
  mkHODPoisson central true (Zehavi05_co M_min) (Tinker05_so M_min M_1 M_cut)
    (fun _ => 1) (fun _ => 1)

/-- `Zehavi05WithMax._central_occupation` (`hod.py` lines 440-451): zeros,
set to 1 where `m >= 10 ** M_min` and `m <= 10 ** M_max`. -/
def Zehavi05WithMax_co (M_min M_max : ℝ) (m : ℝ) : ℝ :=
  if (10 : ℝ) ^ M_min ≤ m ∧ m ≤ (10 : ℝ) ^ M_max then 1 else 0

/-- `class Zehavi05WithMax(Zehavi05)` (`hod.py` lines 430-457); its
`_satellite_occupation` (lines 453-457) is the same power law as
`Zehavi05`. -/
def Zehavi05WithMax (central : Bool) (M_min M_1 alpha M_max : ℝ) : HOD :=
  mkHODPoisson central false (Zehavi05WithMax_co M_min M_max)
    (Zehavi05_so M_1 alpha) (fun _ => 1) (fun _ => 1)

/-- `class Zehavi05Marked(Zehavi05WithMax)` (`hod.py` lines 460-490):
`_tracer_per_central = 10 ** logA`; `_central_occupation` and
`_satellite_occupation` multiply the inherited ones by the tracer amounts;
`sigma_central` is overridden to
`sqrt(_tracer_per_central(m) * co * (1 - co))` where `co` is the inherited
unweighted `Zehavi05WithMax._central_occupation`. -/
def Zehavi05Marked (central : Bool) (M_min M_1 logA alpha M_max : ℝ) : HOD :=
  { mkHODPoisson central false
      (fun m => Zehavi05WithMax_co M_min M_max m * (10 : ℝ) ^ logA)
      (fun m => Zehavi05_so M_1 alpha m * (10 : ℝ) ^ logA)
      (fun _ => (10 : ℝ) ^ logA) (fun _ => (10 : ℝ) ^ logA) with
    sigma_central := fun m =>
      Real.sqrt ((10 : ℝ) ^ logA * Zehavi05WithMax_co M_min M_max m *
        (1 - Zehavi05WithMax_co M_min M_max m)) }

/-- `class HODNoCentral(HOD)` (`hod.py` lines 182-199): sets
`self._central = False` after construction regardless of the flag passed in,
and fixes `nc = 0`, `cs_pairs = 0`, `_central_occupation = 0`,
`sigma_central = 0`.  `ns`, `ss_pairs`, `_satellite_occupation` and
`sigma_satellite` stay abstract (arguments here); the class constant
`central_condition_inherent` stays `False`. -/
def mkHODNoCentral (central : Bool) (so_raw ns ss sig_sat : ℝ → ℝ) : HOD :=
  { central := false
    central_condition_inherent := false
    nc := fun _ => 0
    ns := ns
    co_raw := fun _ => 0
    so_raw := so_raw
    ss_pairs := ss
    cs_pairs := fun _ => 0
    sigma_central := fun _ => 0
    sigma_satellite := sig_sat }

/-- `class HODBulk(HODNoCentral)` (`hod.py` lines 202-209): `ns = 0` and
`ss_pairs(m) = satellite_occupation(m) ** 2`.  Since `HODNoCentral` forces
`_central = False` and `central_condition_inherent` is `False`, the
dispatched `satellite_occupation` is the raw `_satellite_occupation`
(proved in `bulk_satellite_occupation_raw` below). -/
def mkHODBulk (central : Bool) (so_raw sig_sat : ℝ → ℝ) : HOD :=
  mkHODNoCentral central so_raw (fun _ => 0) (fun m => so_raw m ^ 2) sig_sat

/-- `ContinuousPowerLaw._satellite_occupation` (`hod.py` lines 508-517):
`A * ((m / M_1) ** alpha + 1)` inside `[10 ** M_min, 10 ** M_max]`, else 0. -/
def ContinuousPowerLaw_so (M_min M_1 logA alpha M_max : ℝ) (m : ℝ) : ℝ :=
  if (10 : ℝ) ^ M_min ≤ m ∧ m ≤ (10 : ℝ) ^ M_max then
    (10 : ℝ) ^ logA * ((m / (10 : ℝ) ^ M_1) ^ alpha + 1)
  else 0

/-- `class ContinuousPowerLaw(HODBulk)` (`hod.py` lines 493-520);
`sigma_satellite` (lines 519-520) is the constant `sigma_A`. -/
def ContinuousPowerLaw (central : Bool)
    (M_min M_1 logA alpha M_max sigma_A : ℝ) : HOD :=
  mkHODBulk central (ContinuousPowerLaw_so M_min M_1 logA alpha M_max)
    (fun _ => sigma_A)

/-- `Constant._satellite_occupation` (`hod.py` lines 528-529):
`10 ** logA` where `m > 10 ** M_min`, else 0. -/
def Constant_so (M_min logA : ℝ) (m : ℝ) : ℝ :=
  if m > (10 : ℝ) ^ M_min then (10 : ℝ) ^ logA else 0

/-- `class Constant(HODBulk)` (`hod.py` lines 523-532). -/
def Constant (central : Bool) (M_min logA sigma_A : ℝ) : HOD :=
  mkHODBulk central (Constant_so M_min logA) (fun _ => sigma_A)

/-- IEEE-754 double values as relevant to special-value propagation: a
finite value (rounding is not modelled), the two infinities, and
not-a-number.  `hod.py` computes with numpy arrays of doubles; numpy's
default error state turns division by zero into a `RuntimeWarning` plus a
signed infinity -- no exception is raised. -/
inductive FP where
  | fin : ℝ → FP
  | pinf : FP
  | ninf : FP
  | nan : FP

/-- Whether a value is an IEEE special value (an infinity or NaN). -/
def FP.isSpecial : FP → Bool
  | .fin _ => false
  | _ => true

/-- IEEE negation. -/
def FP.neg : FP → FP
  | .fin a => .fin (-a)
  | .pinf => .ninf
  | .ninf => .pinf
  | .nan => .nan

/-- IEEE subtraction (overflow of a finite result is not modelled; the
subtraction of two equal finite doubles yields `+0.0`). -/
def FP.sub : FP → FP → FP
  | .nan, _ => .nan
  | _, .nan => .nan
  | .fin a, .fin b => .fin (a - b)
  | .fin _, .pinf => .ninf
  | .fin _, .ninf => .pinf
  | .pinf, .fin _ => .pinf
  | .ninf, .fin _ => .ninf
  | .pinf, .pinf => .nan
  | .pinf, .ninf => .pinf
  | .ninf, .pinf => .ninf
  | .ninf, .ninf => .nan

/-- IEEE division.  A nonzero finite value divided by zero yields a signed
infinity (a zero denominator is treated as `+0.0`, which is what the
subtraction of equal finite doubles produces); `0/0` yields NaN. -/
def FP.div : FP → FP → FP
  | .nan, _ => .nan
  | _, .nan => .nan
  | .fin a, .fin b =>
      if b = 0 then
        if a > 0 then .pinf else if a < 0 then .ninf else .nan
      else .fin (a / b)
  | .fin _, .pinf => .fin 0
  | .fin _, .ninf => .fin 0
  | .pinf, .fin b => if b < 0 then .ninf else .pinf
  | .ninf, .fin b => if b < 0 then .pinf else .ninf
  | _, _ => .nan

/-- IEEE multiplication (overflow of a finite product is not modelled);
`0 * inf` yields NaN. -/
def FP.mul : FP → FP → FP
  | .nan, _ => .nan
  | _, .nan => .nan
  | .fin a, .fin b => .fin (a * b)
  | .fin a, .pinf => if a > 0 then .pinf else if a < 0 then .ninf else .nan
  | .fin a, .ninf => if a > 0 then .ninf else if a < 0 then .pinf else .nan
  | .pinf, .fin b => if b > 0 then .pinf else if b < 0 then .ninf else .nan
  | .ninf, .fin b => if b > 0 then .ninf else if b < 0 then .pinf else .nan
  | .pinf, .pinf => .pinf
  | .pinf, .ninf => .ninf
  | .ninf, .pinf => .ninf
  | .ninf, .ninf => .pinf

/-- IEEE `np.exp`: `exp(-inf) = 0.0`, `exp(+inf) = inf`, `exp(nan) = nan`
(overflow of a finite argument is not modelled; the argument of interest
below is exactly `-inf`). -/
def FP.exp : FP → FP
  | .fin a => .fin (Real.exp a)
  | .pinf => .pinf
  | .ninf => .fin 0
  | .nan => .nan

/-- The argument of `np.exp` in `Tinker05._satellite_occupation`
(`hod.py` line 425), in IEEE arithmetic:
`-(10 ** M_cut) / (m - 10 ** M_min)`. -/
def Tinker05_expArg_fp (M_min M_cut : ℝ) (m : FP) : FP :=
  FP.div (FP.neg (FP.fin ((10 : ℝ) ^ M_cut)))
    (FP.sub m (FP.fin ((10 : ℝ) ^ M_min)))

/-- `Tinker05._satellite_occupation` (`hod.py` lines 421-427) in IEEE
arithmetic: `central_occupation(m) * np.exp(...) * (m / 10 ** M_1)`.  The
inherited step central occupation is exact in doubles. -/
def Tinker05_so_fp (M_min M_1 M_cut : ℝ) (m : ℝ) : FP :=
  FP.mul
    (FP.mul (FP.fin (Zehavi05_co M_min m))
      (FP.exp (Tinker05_expArg_fp M_min M_cut (FP.fin m))))
    (FP.div (FP.fin m) (FP.fin ((10 : ℝ) ^ M_1)))

theorem tinker05_so_fp_at_mmin (M_min M_1 M_cut : ℝ) :
    Tinker05_expArg_fp M_min M_cut (FP.fin ((10 : ℝ) ^ M_min)) = FP.ninf ∧
    Tinker05_so_fp M_min M_1 M_cut ((10 : ℝ) ^ M_min) = FP.fin 0 := by
  have hcut : (0 : ℝ) < (10 : ℝ) ^ M_cut :=
    Real.rpow_pos_of_pos (by norm_num) _
  have h2 : -((10 : ℝ) ^ M_cut) < 0 := neg_lt_zero.mpr hcut
  have h1 : ¬(-((10 : ℝ) ^ M_cut) > 0) := not_lt.mpr (le_of_lt h2)
  have hM1 : ¬((10 : ℝ) ^ M_1 = 0) :=
    ne_of_gt (Real.rpow_pos_of_pos (by norm_num) _)
  have hco : Zehavi05_co M_min ((10 : ℝ) ^ M_min) = 1 := by
    rw [Zehavi05_co, if_neg (lt_irrefl _)]
  have harg : Tinker05_expArg_fp M_min M_cut
      (FP.fin ((10 : ℝ) ^ M_min)) = FP.ninf := by
    rw [Tinker05_expArg_fp]
    simp only [FP.neg, FP.sub, sub_self, FP.div]
    simp [h1, h2]
  refine ⟨harg, ?_⟩
  rw [Tinker05_so_fp, harg, hco]
  simp only [FP.exp, FP.div, FP.mul]
  simp [hM1]

/-- For a bulk model the dispatched `satellite_occupation` is the raw
`_satellite_occupation`, because `HODNoCentral` forces `_central = False`. -/
theorem bulk_satellite_occupation_raw (central : Bool)
    (so_raw sig_sat : ℝ → ℝ) (m : ℝ) :
    (mkHODBulk central so_raw sig_sat).satellite_occupation m = so_raw m := by
  simp [mkHODBulk, mkHODNoCentral, HOD.satellite_occupation]

/-- C1: for every HOD model instance and every mass `m`, the public
`satellite_occupation m` equals `nc m * raw_satellite_occupation m` when the
`central` flag is true and `central_condition_inherent` is false, and equals
`raw_satellite_occupation m` unchanged in every other case. -/
theorem satellite_occupation_dispatch (h : HOD) (m : ℝ) :
    (h.central = true → h.central_condition_inherent = false →
      h.satellite_occupation m = h.nc m * h.so_raw m) ∧
    (h.central = false ∨ h.central_condition_inherent = true →
      h.satellite_occupation m = h.so_raw m) := by
  constructor
  · intro hc hi
    simp [HOD.satellite_occupation, hc, hi]
  · intro hor
    rcases hor with hc | hi
    · simp [HOD.satellite_occupation, hc]
    · simp [HOD.satellite_occupation, hi]

theorem satellite_occupation_dispatch_witness :
    (Zehavi05 true 0 0 1).satellite_occupation 5 =
      (Zehavi05 true 0 0 1).nc 5 * (Zehavi05 true 0 0 1).so_raw 5 :=
  (satellite_occupation_dispatch (Zehavi05 true 0 0 1) 5).1 rfl rfl

/-- C2: for every HOD model instance and every mass `m`,
`total_occupation m = central_occupation m + satellite_occupation m` exactly,
and `total_pair_function m = ss_pairs m + cs_pairs m` exactly. -/
theorem total_additivity (h : HOD) (m : ℝ) :
    h.total_occupation m = h.central_occupation m + h.satellite_occupation m ∧
    h.total_pair_function m = h.ss_pairs m + h.cs_pairs m :=
  ⟨rfl, rfl⟩

/-- The central-condition zero law for one model instance: wherever the
public central occupation vanishes, if the `central` flag or the class
constant `central_condition_inherent` is set, the public satellite
occupation vanishes too. -/
def satZeroWhenCoZero (h : HOD) : Prop :=
  ∀ m : ℝ, h.central_occupation m = 0 →
    (h.central = true ∨ h.central_condition_inherent = true) →
    h.satellite_occupation m = 0

theorem poisson_noninherent_zero_law (central : Bool) (co so tpc tps : ℝ → ℝ) :
    satZeroWhenCoZero (mkHODPoisson central false co so tpc tps) := by
  intro m hco hor
  have hc : central = true := by
    rcases hor with h | h
    · exact h
    · exact absurd h (by simp [mkHODPoisson])
  have hco' : co m = 0 := hco
  simp [mkHODPoisson, HOD.satellite_occupation, hc, hco']

theorem tinker05_zero_law (central : Bool) (M_min M_1 M_cut : ℝ) :
    satZeroWhenCoZero (Tinker05 central M_min M_1 M_cut) := by
  intro m hco _
  have hco' : Zehavi05_co M_min m = 0 := hco
  simp [Tinker05, mkHODPoisson, HOD.satellite_occupation, Tinker05_so, hco']

theorem bulk_zero_law (central : Bool) (so sig : ℝ → ℝ) :
    satZeroWhenCoZero (mkHODBulk central so sig) := by
  intro m _ hor
  rcases hor with h | h <;> simp [mkHODBulk, mkHODNoCentral] at h

theorem zehavi05Marked_zero_law (central : Bool)
    (M_min M_1 logA alpha M_max : ℝ) :
    satZeroWhenCoZero (Zehavi05Marked central M_min M_1 logA alpha M_max) := by
  intro m hco hor
  have hc : central = true := by
    rcases hor with h | h
    · exact h
    · exact absurd h (by simp [Zehavi05Marked, mkHODPoisson])
  have hco' : Zehavi05WithMax_co M_min M_max m * (10 : ℝ) ^ logA = 0 := hco
  simp [Zehavi05Marked, mkHODPoisson, HOD.satellite_occupation, hc, hco']

/-- C3: for every concrete model instance in the module and every mass `m`
at which `central_occupation m = 0`, if the `central` flag is true or the
class constant `central_condition_inherent` is true, then
`satellite_occupation m = 0`. -/
theorem central_zero_law_all_models (erf : ℝ → ℝ) (central : Bool)
    (M_min M_1 alpha M_0 sig_logm fca fcb fs delta x M_cut logA M_max
      sigma_A : ℝ) :
    satZeroWhenCoZero (Zehavi05 central M_min M_1 alpha) ∧
    satZeroWhenCoZero (Zheng05 erf central M_min M_1 alpha M_0 sig_logm) ∧
    satZeroWhenCoZero
      (Contreras13 erf central M_min M_1 alpha M_0 sig_logm fca fcb fs delta
        x) ∧
    satZeroWhenCoZero
      (Geach12 erf central M_min M_1 alpha M_0 sig_logm fca fcb fs delta x) ∧
    satZeroWhenCoZero (Tinker05 central M_min M_1 M_cut) ∧
    satZeroWhenCoZero (Zehavi05WithMax central M_min M_1 alpha M_max) ∧
    satZeroWhenCoZero (Zehavi05Marked central M_min M_1 logA alpha M_max) ∧
    satZeroWhenCoZero
      (ContinuousPowerLaw central M_min M_1 logA alpha M_max sigma_A) ∧
    satZeroWhenCoZero (Constant central M_min logA sigma_A) :=
  ⟨poisson_noninherent_zero_law central _ _ _ _,
    poisson_noninherent_zero_law central _ _ _ _,
    poisson_noninherent_zero_law central _ _ _ _,
    poisson_noninherent_zero_law central _ _ _ _,
    tinker05_zero_law central M_min M_1 M_cut,
    poisson_noninherent_zero_law central _ _ _ _,
    zehavi05Marked_zero_law central M_min M_1 logA alpha M_max,
    bulk_zero_law central _ _,
    bulk_zero_law central _ _⟩

theorem central_zero_law_all_models_witness :
    (Zehavi05 true 0 0 1).satellite_occupation (1 / 2) = 0 :=
  (central_zero_law_all_models (fun _ => 0) true 0 0 1 0 0 0 0 0 0 0 0 0 0
      0).1 (1 / 2)
    (by
      show Zehavi05_co 0 (1 / 2) = 0
      rw [Zehavi05_co, if_pos]
      rw [Real.rpow_zero]; norm_num)
    (Or.inl rfl)

/-- C4: for every Poisson-mixin model instance and every mass `m`: if the
`central` flag is false then
`cs_pairs m = central_occupation m * satellite_occupation m`, and if the
flag is true then `cs_pairs m = satellite_occupation m * tpc m` where `tpc`
is `_tracer_per_central`. -/
theorem poisson_cs_pairs_law (central cci : Bool) (co so tpc tps : ℝ → ℝ)
    (m : ℝ) :
    (central = false →
      (mkHODPoisson central cci co so tpc tps).cs_pairs m =
        (mkHODPoisson central cci co so tpc tps).central_occupation m *
          (mkHODPoisson central cci co so tpc tps).satellite_occupation m) ∧
    (central = true →
      (mkHODPoisson central cci co so tpc tps).cs_pairs m =
        (mkHODPoisson central cci co so tpc tps).satellite_occupation m *
          tpc m) := by
  constructor
  · intro hc
    subst hc
    simp [mkHODPoisson, HOD.central_occupation, HOD.satellite_occupation]
  · intro hc
    subst hc
    simp [mkHODPoisson, HOD.satellite_occupation]

theorem poisson_cs_pairs_law_witness :
    (mkHODPoisson false false (fun _ => 1) (fun _ => 1) (fun _ => 1)
        (fun _ => 1)).cs_pairs 0 =
      (mkHODPoisson false false (fun _ => 1) (fun _ => 1) (fun _ => 1)
          (fun _ => 1)).central_occupation 0 *
        (mkHODPoisson false false (fun _ => 1) (fun _ => 1) (fun _ => 1)
            (fun _ => 1)).satellite_occupation 0 :=
  (poisson_cs_pairs_law false false (fun _ => 1) (fun _ => 1) (fun _ => 1)
      (fun _ => 1) 0).1 rfl

/-- C6: for every bulk-mixin model instance (`ContinuousPowerLaw` or
`Constant`) and every mass `m`, `ss_pairs m = satellite_occupation m ^ 2`,
`ns m = 0` and `nc m = 0`. -/
theorem bulk_self_pair_law (central : Bool)
    (M_min M_1 logA alpha M_max sigma_A cM_min clogA csigma_A : ℝ) (m : ℝ) :
    ((ContinuousPowerLaw central M_min M_1 logA alpha M_max
          sigma_A).ss_pairs m =
        (ContinuousPowerLaw central M_min M_1 logA alpha M_max
            sigma_A).satellite_occupation m ^ 2 ∧
      (ContinuousPowerLaw central M_min M_1 logA alpha M_max sigma_A).ns m =
        0 ∧
      (ContinuousPowerLaw central M_min M_1 logA alpha M_max sigma_A).nc m =
        0) ∧
    ((Constant central cM_min clogA csigma_A).ss_pairs m =
        (Constant central cM_min clogA csigma_A).satellite_occupation m ^
          2 ∧
      (Constant central cM_min clogA csigma_A).ns m = 0 ∧
      (Constant central cM_min clogA csigma_A).nc m = 0) := by
  refine ⟨⟨?_, rfl, rfl⟩, ?_, rfl, rfl⟩
  · rw [show ContinuousPowerLaw central M_min M_1 logA alpha M_max sigma_A =
        mkHODBulk central (ContinuousPowerLaw_so M_min M_1 logA alpha M_max)
          (fun _ => sigma_A) from rfl,
      bulk_satellite_occupation_raw]
    rfl
  · rw [show Constant central cM_min clogA csigma_A =
        mkHODBulk central (Constant_so cM_min clogA) (fun _ => csigma_A) from
          rfl,
      bulk_satellite_occupation_raw]
    rfl

/-- C7: for every no-central-mixin model instance, regardless of the
`central` value passed at construction, the stored `central` flag is false,
and for every mass `m`: `nc m = 0`, `cs_pairs m = 0`, the raw central
occupation is 0 and `sigma_central m = 0`. -/
theorem no_central_zeroing (central : Bool) (so_raw ns ss sig_sat : ℝ → ℝ)
    (m : ℝ) :
    (mkHODNoCentral central so_raw ns ss sig_sat).central = false ∧
    (mkHODNoCentral central so_raw ns ss sig_sat).nc m = 0 ∧
    (mkHODNoCentral central so_raw ns ss sig_sat).cs_pairs m = 0 ∧
    (mkHODNoCentral central so_raw ns ss sig_sat).co_raw m = 0 ∧
    (mkHODNoCentral central so_raw ns ss sig_sat).sigma_central m = 0 :=
  ⟨rfl, rfl, rfl, rfl, rfl⟩

/-- C5 counterexample: the claim "for every Poisson-mixin model instance
`sigma_central m = sqrt(central_occupation m * (1 - central_occupation m))`"
fails for `Zehavi05Marked` (a Poisson-mixin model), which overrides
`sigma_central` to use the unweighted step occupation: with
`M_min = 0, M_1 = 0, logA = -1, alpha = 1, M_max = 1` at `m = 5` the
central occupation is `1/10 ∈ [0,1]`, the overridden `sigma_central` is 0,
but `sqrt(co * (1 - co)) = sqrt(9/100) > 0`. -/
theorem zehavi05Marked_breaks_sigma_central_law :
    0 ≤ (Zehavi05Marked false 0 0 (-1) 1 1).central_occupation 5 ∧
    (Zehavi05Marked false 0 0 (-1) 1 1).central_occupation 5 ≤ 1 ∧
    (Zehavi05Marked false 0 0 (-1) 1 1).sigma_central 5 ≠
      Real.sqrt ((Zehavi05Marked false 0 0 (-1) 1 1).central_occupation 5 *
        (1 - (Zehavi05Marked false 0 0 (-1) 1 1).central_occupation 5)) := by
  have h10 : ((10 : ℝ) ^ (0 : ℝ)) = 1 := Real.rpow_zero 10
  have h11 : ((10 : ℝ) ^ (1 : ℝ)) = 10 := Real.rpow_one 10
  have hneg : ((10 : ℝ) ^ (-1 : ℝ)) = 1 / 10 := by
    rw [show (-1 : ℝ) = -(1 : ℝ) from rfl,
      Real.rpow_neg (by norm_num : (0 : ℝ) ≤ 10), Real.rpow_one]
    norm_num
  have hstep : Zehavi05WithMax_co 0 1 5 = 1 := by
    rw [Zehavi05WithMax_co,
      if_pos ⟨by rw [h10]; norm_num, by rw [h11]; norm_num⟩]
  have hco : (Zehavi05Marked false 0 0 (-1) 1 1).central_occupation 5 =
      1 / 10 := by
    show Zehavi05WithMax_co 0 1 5 * (10 : ℝ) ^ (-1 : ℝ) = 1 / 10
    rw [hstep, hneg]; norm_num
  have hsig : (Zehavi05Marked false 0 0 (-1) 1 1).sigma_central 5 = 0 := by
    show Real.sqrt ((10 : ℝ) ^ (-1 : ℝ) * Zehavi05WithMax_co 0 1 5 *
        (1 - Zehavi05WithMax_co 0 1 5)) = 0
    rw [hstep]
    simp
  refine ⟨by rw [hco]; norm_num, by rw [hco]; norm_num, ?_⟩
  rw [hsig, hco]
  exact Ne.symm (ne_of_gt (Real.sqrt_pos.mpr (by norm_num)))

/-- C5 amended: for every Poisson-mixin model instance that uses the
mixin's own standard-deviation implementations (`Zehavi05Marked` overrides
`sigma_central` and violates the second equality), for every mass `m` with
`central_occupation m` in `[0,1]`,
`sigma_satellite m = sqrt(satellite_occupation m)` and
`sigma_central m = sqrt(central_occupation m * (1 - central_occupation m))`. -/
theorem poisson_sigma_laws (central cci : Bool) (co so tpc tps : ℝ → ℝ)
    (m : ℝ)
    (h0 : 0 ≤ (mkHODPoisson central cci co so tpc tps).central_occupation m)
    (h1 : (mkHODPoisson central cci co so tpc tps).central_occupation m ≤ 1) :
    (mkHODPoisson central cci co so tpc tps).sigma_satellite m =
      Real.sqrt
        ((mkHODPoisson central cci co so tpc tps).satellite_occupation m) ∧
    (mkHODPoisson central cci co so tpc tps).sigma_central m =
      Real.sqrt
        ((mkHODPoisson central cci co so tpc tps).central_occupation m *
          (1 -
            (mkHODPoisson central cci co so tpc tps).central_occupation m)) :=
  ⟨rfl, rfl⟩

theorem poisson_sigma_laws_witness :
    (mkHODPoisson false false (fun _ => 1 / 2) (fun _ => 1) (fun _ => 1)
        (fun _ => 1)).sigma_central 0 =
      Real.sqrt
        ((mkHODPoisson false false (fun _ => 1 / 2) (fun _ => 1) (fun _ => 1)
            (fun _ => 1)).central_occupation 0 *
          (1 -
            (mkHODPoisson false false (fun _ => 1 / 2) (fun _ => 1)
                (fun _ => 1) (fun _ => 1)).central_occupation 0)) :=
  (poisson_sigma_laws false false (fun _ => 1 / 2) (fun _ => 1) (fun _ => 1)
      (fun _ => 1) 0
      (by show (0 : ℝ) ≤ 1 / 2; norm_num)
      (by show (1 : ℝ) / 2 ≤ 1; norm_num)).2

/-- C8: for `Zehavi05` with `M_min = 11.6222, M_1 = 12.851, alpha = 1.049`
(its defaults): `central_occupation` at `m = 10 ^ 11.6222` equals 1,
`central_occupation` at `m = 10 ^ 11.6` equals 0, and
`satellite_occupation` at `m = 10 ^ 12.851` equals 1 exactly (the source
computes in doubles, hence "within floating tolerance"; over the reals the
value is exact).  This holds whichever `central` flag the instance was
constructed with. -/
theorem zehavi05_step_cutoff_values (central : Bool) :
    (Zehavi05 central 11.6222 12.851 1.049).central_occupation
        ((10 : ℝ) ^ (11.6222 : ℝ)) = 1 ∧
    (Zehavi05 central 11.6222 12.851 1.049).central_occupation
        ((10 : ℝ) ^ (11.6 : ℝ)) = 0 ∧
    (Zehavi05 central 11.6222 12.851 1.049).satellite_occupation
        ((10 : ℝ) ^ (12.851 : ℝ)) = 1 := by
  have hso : Zehavi05_so 12.851 1.049 ((10 : ℝ) ^ (12.851 : ℝ)) = 1 := by
    rw [Zehavi05_so,
      div_self (ne_of_gt (Real.rpow_pos_of_pos (by norm_num) _)),
      Real.one_rpow]
  have hco3 : Zehavi05_co 11.6222 ((10 : ℝ) ^ (12.851 : ℝ)) = 1 := by
    rw [Zehavi05_co, if_neg]
    exact not_lt.mpr
      (le_of_lt ((Real.rpow_lt_rpow_left_iff (by norm_num)).mpr (by norm_num)))
  refine ⟨?_, ?_, ?_⟩
  · show Zehavi05_co 11.6222 ((10 : ℝ) ^ (11.6222 : ℝ)) = 1
    rw [Zehavi05_co, if_neg (lt_irrefl _)]
  · show Zehavi05_co 11.6222 ((10 : ℝ) ^ (11.6 : ℝ)) = 0
    rw [Zehavi05_co,
      if_pos ((Real.rpow_lt_rpow_left_iff (by norm_num)).mpr (by norm_num))]
  · cases central with
    | false =>
      simpa [Zehavi05, mkHODPoisson, HOD.satellite_occupation] using hso
    | true =>
      simp [Zehavi05, mkHODPoisson, HOD.satellite_occupation, hco3, hso]

/-- C9 counterexample: for `Tinker05` with its default parameters
(`M_min = 11.6222, M_1 = 12.851, M_cut = 12`), evaluating the raw satellite
occupation in IEEE arithmetic at `m = 10 ^ M_min` exactly returns the
ordinary value `0.0` -- not an infinity or NaN as the claim states: the
division by zero yields `-inf`, but `np.exp` maps `-inf` to `0.0`. -/
theorem tinker05_at_mmin_returns_zero :
    Tinker05_so_fp 11.6222 12.851 12 ((10 : ℝ) ^ (11.6222 : ℝ)) =
      FP.fin 0 ∧
    (Tinker05_so_fp 11.6222 12.851 12
        ((10 : ℝ) ^ (11.6222 : ℝ))).isSpecial = false := by
  have h := (tinker05_so_fp_at_mmin 11.6222 12.851 12).2
  exact ⟨h, by rw [h]; rfl⟩

/-- C9 amended: for every parameter set, evaluating `Tinker05`'s raw
satellite occupation in IEEE arithmetic at a mass `m` exactly equal to
`10 ^ M_min` performs a division by zero that this layer does not catch --
no error is raised and the division silently produces `-inf` as the
argument of `np.exp` -- but `np.exp(-inf) = 0.0`, so the value that
propagates to the caller is the ordinary `0.0`, not an infinity or NaN. -/
theorem tinker05_div_by_zero_masked_by_exp (M_min M_1 M_cut : ℝ) :
    Tinker05_expArg_fp M_min M_cut (FP.fin ((10 : ℝ) ^ M_min)) = FP.ninf ∧
    Tinker05_so_fp M_min M_1 M_cut ((10 : ℝ) ^ M_min) = FP.fin 0 :=
  tinker05_so_fp_at_mmin M_min M_1 M_cut

/-- C10: for the tracer-weighted model `Zehavi05Marked`,
`sigma_central m = 0` for every mass `m` and every parameter set: the
Bernoulli factor is computed from the unweighted step central occupation,
which takes only the values 0 and 1, so
`sqrt(tracer_per_central m * co * (1 - co))` vanishes identically. -/
theorem zehavi05Marked_sigma_central_zero (central : Bool)
    (M_min M_1 logA alpha M_max m : ℝ) :
    (Zehavi05Marked central M_min M_1 logA alpha M_max).sigma_central m =
      0 := by
  show Real.sqrt ((10 : ℝ) ^ logA * Zehavi05WithMax_co M_min M_max m *
      (1 - Zehavi05WithMax_co M_min M_max m)) = 0
  rw [Zehavi05WithMax_co]
  by_cases h : (10 : ℝ) ^ M_min ≤ m ∧ m ≤ (10 : ℝ) ^ M_max
  · rw [if_pos h]; simp
  · rw [if_neg h]; simp
